import Mathlib

/-!
Verification of the devspace orchestration core (cmd/up.go and
pkg/devspace/clients/kubectl/client.go) against its specification.

The Go code is shallowly embedded: pure fragments become Lean functions,
loops become structural or well-founded recursion, calls into the cluster
API are abstracted by explicit result parameters (the value the remote call
returned), and `log.Fatalf` aborts are modelled by `Option`/`Except`
results. Machine integers are modelled by `Int` (the values involved are
tiny), instants of `time.Time` by `Int` nanoseconds since the epoch with
the Go zero time at `0`; `time.Format`/`time.Parse` with `RFC3339Nano`
render instants injectively, so a record that stores the formatted string
is modelled by the instant it denotes.
-/

namespace DevSpace

/-- Accumulate the value of a decimal digit string; `none` as soon as a
non-digit character appears. -/
def decDigitsAux : List Char → Nat → Option Nat
  | [], acc => some acc
  | c :: cs, acc =>
    if 48 ≤ c.toNat ∧ c.toNat ≤ 57 then decDigitsAux cs (acc * 10 + (c.toNat - 48))
    else none

/-- Value of a non-empty all-digit character list, `none` otherwise. -/
def decNat (cs : List Char) : Option Nat :=
  if cs.isEmpty then none else decDigitsAux cs 0

/-- Go `strconv.Atoi` with its error discarded, as the selection loop in
`deployChart` uses it: an optionally signed decimal integer string parses
to its value, any other string leaves the Go zero value `0` in place
(faithful for values inside the machine int range, which covers release
revisions). -/
def atoi (s : String) : Int :=
  match s.toList with
  | '-' :: cs => match decNat cs with
    | some n => -(n : Int)
    | none => 0
  | '+' :: cs => (match decNat cs with
    | some n => (n : Int)
    | none => 0)
  | cs => (match decNat cs with
    | some n => (n : Int)
    | none => 0)

/-- A workload pod as seen by the release-pod selection loop in
`deployChart` (cmd/up.go): only its identity and the optional `revision`
annotation matter there. `revision = none` models a pod whose annotation
map has no `revision` key. -/
structure RelPod where
  name : String
  revision : Option String
deriving DecidableEq, Repr

/-- The string Go reads out of `pod.Annotations["revision"]`: the stored
value, or the zero value `""` when the key is absent. -/
def revString (p : RelPod) : String := p.revision.getD ""

/-- State of the selection loop in `deployChart`: the running
`highestRevision` and the currently selected pod (`none` before the first
iteration, standing for the zero-valued `selectedPod`). -/
structure SelState where
  highestRevision : Int
  selectedPod : Option RelPod
deriving DecidableEq, Repr

/-- One iteration of the selection loop body (cmd/up.go lines 502-518) at
index `i`: `hasHigherRevision := (i == 0)`, re-examined for later pods that
carry a revision annotation strictly above the tracked highest. -/
def selectStep (st : SelState) (i : Nat) (pod : RelPod) : SelState :=
  let podHasRevision := pod.revision.isSome
  let hasHigherRevision :=
    i == 0 || (podHasRevision && decide (atoi (revString pod) > st.highestRevision))
  if hasHigherRevision then
    { highestRevision := atoi (revString pod), selectedPod := some pod }
  else st

/-- The indexed `for i, pod := range podList.Items` scan. -/
def selectLoopAux : SelState → Nat → List RelPod → SelState
  | st, _, [] => st
  | st, i, p :: ps => selectLoopAux (selectStep st i p) (i + 1) ps

/-- The whole selection scan of one poll of `deployChart` over a freshly
listed pod list, starting from `highestRevision = 0` and no selected pod. -/
def selectReleasePod (pods : List RelPod) : SelState :=
  selectLoopAux { highestRevision := 0, selectedPod := none } 0 pods

/-- Test pod with revision annotation 3. -/
def podA3 : RelPod := { name := "pod-a", revision := some "3" }

/-- Test pod with revision annotation 7, listed first among the two. -/
def podB7 : RelPod := { name := "pod-b", revision := some "7" }

/-- Second test pod with revision annotation 7. -/
def podC7 : RelPod := { name := "pod-c", revision := some "7" }

/-- Outcome of the deploy-or-reuse branch of `Run` (cmd/up.go lines
144-157): either `deployChart` is invoked, or the already running release
pod is kept as the session pod. -/
inductive DeployDecision where
  | deployed
  | reused (pod : RelPod)
deriving DecidableEq, Repr

/-- The branch of `Run` that decides between deploying the chart and
reusing a running release pod. `buildFlag` is `cmd.flags.build`,
`buildImagesResult` the value `buildImages` returned when it ran,
`deployFlag` is `cmd.flags.deploy`, and `reuse` the `(pod, err)` pair
`getRunningDevSpacePod` produced (that helper lives outside the two core
files; only its result shape reaches this branch). -/
def runDeployDecision (buildFlag buildImagesResult deployFlag : Bool)
    (reuse : Except String RelPod) : DeployDecision :=
  let mustRedeploy := if buildFlag then buildImagesResult else false
  match reuse with
  | .error _ => .deployed
  | .ok pod => if mustRedeploy || deployFlag then .deployed else .reused pod

/-- The build-decision function `shouldRebuild` (cmd/up.go lines 248-276).
`latestTimestamp` is the instant stored in
`imageConf.Build.LatestTimestamp` (`none` when the field is nil),
`dockerfileModTime` the `os.Stat` result (`none` when the stat fails,
i.e. the Dockerfile is missing), `buildFlagChanged` whether the user
passed the build flag explicitly. Result: `none` when the run aborts via
`log.Fatalf` (file missing and no prior timestamp), otherwise the decision
together with the instant written back into the record — note that on the
missing-file path the written instant is the Go zero time `0`, because
`dockerfileModTime` keeps its zero value there. -/
def shouldRebuild (latestTimestamp : Option Int) (dockerfileModTime : Option Int)
    (buildFlagChanged : Bool) : Option (Bool × Int) :=
  match dockerfileModTime with
  | none =>
    match latestTimestamp with
    | none => none
    | some _ => some (false, 0)
  | some modTime =>
    let mustRebuild :=
      if buildFlagChanged = false then
        match latestTimestamp with
        | some latest => decide (¬ latest = modTime)
        | none => true
      else true
    some (mustRebuild, modTime)

/-- CLAIM C1. During release pod resolution, on each poll over a non-empty
scanned pod list, the first pod encountered is provisionally selected as
highest; a later pod replaces the selection only if it carries a revision
annotation whose integer value is strictly greater than the tracked
highest revision (an equal revision never wins); and for every scan order
of pods with revision annotations 3, 7, 7 against expected revision 7,
exactly one revision-7 pod ends up selected (with the tracked highest
revision at 7, so resolution accepts it) and the revision-3 pod is never
the selection. -/
theorem selectReleasePod_revision_tiebreak :
    (∀ (p : RelPod) (ps : List RelPod),
      selectReleasePod (p :: ps)
        = selectLoopAux { highestRevision := atoi (revString p), selectedPod := some p } 1 ps)
    ∧ (∀ (st : SelState) (i : Nat) (pod : RelPod),
        ¬ (pod.revision.isSome = true ∧ atoi (revString pod) > st.highestRevision) →
        selectStep st (i + 1) pod = st)
    ∧ (∀ (pods : List RelPod), pods.Perm [podA3, podB7, podC7] →
        ((selectReleasePod pods).selectedPod = some podB7
            ∨ (selectReleasePod pods).selectedPod = some podC7)
          ∧ (selectReleasePod pods).selectedPod ≠ some podA3
          ∧ (selectReleasePod pods).highestRevision = 7) := by
  refine ⟨?_, ?_, ?_⟩
  · intro p ps
    simp [selectReleasePod, selectLoopAux, selectStep]
  · intro st i pod h
    have hne : (i + 1 == 0) = false := by simp
    rcases hrev : pod.revision with _ | r
    · simp [selectStep, hne, hrev]
    · simp only [selectStep, hne, hrev, Option.isSome_some, Bool.true_and, Bool.false_or]
      have : ¬ atoi (revString pod) > st.highestRevision := by
        intro hgt
        exact h ⟨by simp [hrev], hgt⟩
      simp [this]
  · intro pods hperm
    have hlen : pods.length = 3 := by simpa using hperm.length_eq
    rcases pods with _ | ⟨x, _ | ⟨y, _ | ⟨z, _ | ⟨w, t⟩⟩⟩⟩ <;> simp at hlen
    have hx : x ∈ ([podA3, podB7, podC7] : List RelPod) := hperm.mem_iff.mp (by simp)
    have hy : y ∈ ([podA3, podB7, podC7] : List RelPod) := hperm.mem_iff.mp (by simp)
    have hz : z ∈ ([podA3, podB7, podC7] : List RelPod) := hperm.mem_iff.mp (by simp)
    simp only [List.mem_cons, List.mem_singleton, List.not_mem_nil, or_false] at hx hy hz
    rcases hx with rfl | rfl | rfl <;> rcases hy with rfl | rfl | rfl <;>
      rcases hz with rfl | rfl | rfl <;>
      first
        | exact absurd hperm (by decide)
        | decide

/-- Witness for C1: a concrete scan order 7, 3, 7 selects the first
revision-7 pod with the tracked highest revision at 7. -/
theorem selectReleasePod_revision_tiebreak_witness :
    ((selectReleasePod [podB7, podA3, podC7]).selectedPod = some podB7
        ∨ (selectReleasePod [podB7, podA3, podC7]).selectedPod = some podC7)
      ∧ (selectReleasePod [podB7, podA3, podC7]).selectedPod ≠ some podA3
      ∧ (selectReleasePod [podB7, podA3, podC7]).highestRevision = 7 :=
  selectReleasePod_revision_tiebreak.2.2 [podB7, podA3, podC7] (by decide)

/-- CLAIM C2. In a run with building enabled: a rebuild in this run or the
explicit deploy flag forces the chart deploy step; otherwise the run
reuses an existing running release pod as the session pod when the reuse
lookup succeeds and falls back to a full deploy exactly when it fails. -/
theorem run_deploy_decision_spec :
    ∀ (rebuilt deployFlag : Bool) (reuse : Except String RelPod),
      ((rebuilt = true ∨ deployFlag = true) →
        runDeployDecision true rebuilt deployFlag reuse = .deployed)
      ∧ (rebuilt = false → deployFlag = false →
          (∀ e, reuse = .error e →
            runDeployDecision true rebuilt deployFlag reuse = .deployed)
          ∧ (∀ p, reuse = .ok p →
            runDeployDecision true rebuilt deployFlag reuse = .reused p)) := by
  intro rebuilt deployFlag reuse
  refine ⟨?_, ?_⟩
  · rintro (h | h) <;> subst h <;> rcases reuse with e | p <;> simp [runDeployDecision]
  · rintro rfl rfl
    exact ⟨fun e he => by subst he; rfl, fun p hp => by subst hp; rfl⟩

/-- Witness for C2: with no rebuild and no deploy flag, a successful reuse
lookup keeps the found pod as the session pod. -/
theorem run_deploy_decision_spec_witness :
    runDeployDecision true false false (.ok podB7) = .reused podB7 :=
  ((run_deploy_decision_spec false false (.ok podB7)).2 rfl rfl).2 podB7 rfl

/-- CLAIM C3. When the Dockerfile exists: `shouldRebuild` answers true
unconditionally when the build flag was passed explicitly or no prior
timestamp is stored; with the flag not passed and a prior timestamp
stored it answers true exactly when the current modification time differs
(exact equality on instants, not newer-than) from the stored one. -/
theorem shouldRebuild_decision_spec :
    ∀ (st : Option Int) (m : Int) (flag : Bool),
      ((flag = true ∨ st = none) → shouldRebuild st (some m) flag = some (true, m))
      ∧ (∀ s, flag = false → st = some s →
          shouldRebuild st (some m) flag = some (decide (¬ s = m), m)) := by
  intro st m flag
  refine ⟨?_, ?_⟩
  · rintro (rfl | rfl)
    · rcases st with _ | s <;> simp [shouldRebuild]
    · rcases flag with _ | _ <;> simp [shouldRebuild]
  · rintro s rfl rfl
    simp [shouldRebuild]

/-- Witness for C3: stored instant 5, current modification instant 6, flag
not passed: rebuild needed. -/
theorem shouldRebuild_decision_spec_witness :
    shouldRebuild (some 5) (some 6) false = some (true, 6) := by
  have h := (shouldRebuild_decision_spec (some 5) 6 false).2 5 rfl rfl
  simpa using h

/-- Counterexample to C4 as stated: with a prior timestamp stored and the
Dockerfile missing, the call does not abort and writes the zero time `0`
into the record, which is not the modification time of any existing file
(the stat result was `none`). -/
theorem shouldRebuild_timestamp_cex :
    shouldRebuild (some 5) none false = some (false, 0)
      ∧ (none : Option Int) ≠ some (0 : Int) := by
  exact ⟨rfl, by simp⟩

/-- CLAIM C4, amended. After every call to `shouldRebuild` that does not
abort, the instant written into the record is independent of the decision:
it is the current modification time whenever the Dockerfile exists, and
the Go zero time when the Dockerfile is missing but a prior timestamp
exists (the claim said the current modification time in every case,
including the missing-file one, where no such time exists). -/
theorem shouldRebuild_timestamp_overwrite :
    ∀ (st fm : Option Int) (flag : Bool) (d : Bool) (t : Int),
      shouldRebuild st fm flag = some (d, t) → t = fm.getD 0 := by
  intro st fm flag d t h
  rcases fm with _ | m
  · rcases st with _ | s
    · exact absurd h (by simp [shouldRebuild])
    · simp only [shouldRebuild] at h
      injection h with h
      simpa using (congrArg Prod.snd h).symm
  · simp only [shouldRebuild] at h
    injection h with h
    simpa using (congrArg Prod.snd h).symm

/-- Witness for C4: a skip decision still records the current modification
instant of the existing Dockerfile. -/
theorem shouldRebuild_timestamp_overwrite_witness :
    shouldRebuild (some 5) (some 5) false = some (false, 5)
      ∧ (5 : Int) = (some (5 : Int)).getD 0 :=
  ⟨by decide, shouldRebuild_timestamp_overwrite (some 5) (some 5) false false 5 (by decide)⟩

/-- Go `ContainerStateTerminated` as read by `GetPodStatus`. -/
structure ContainerStateTerminated where
  exitCode : Int
  signal : Int
  reason : String
deriving DecidableEq, Repr

/-- Go `ContainerStateWaiting` as read by `GetPodStatus`. -/
structure ContainerStateWaiting where
  reason : String
deriving DecidableEq, Repr

/-- Go `ContainerState`: the three mutually exclusive sub-states as
nullable pointers; `running` records whether `State.Running` is non-nil. -/
structure ContainerState where
  terminated : Option ContainerStateTerminated
  waiting : Option ContainerStateWaiting
  running : Bool
deriving DecidableEq, Repr

/-- Go `ContainerStatus`: the state pointer trio plus the `Ready` flag. -/
structure ContainerStatus where
  state : ContainerState
  ready : Bool
deriving DecidableEq, Repr

/-- The slice of `k8sv1.Pod` that `GetPodStatus` and `waitForPodReady`
read: phase and status reason, the init and regular container statuses,
the length of `pod.Spec.InitContainers`, and whether
`pod.DeletionTimestamp` is non-nil. -/
structure Pod where
  phase : String
  statusReason : String
  initContainerStatuses : List ContainerStatus
  containerStatuses : List ContainerStatus
  specInitContainersLen : Nat
  hasDeletionTimestamp : Bool
deriving DecidableEq, Repr

/-- The init-container scan of `GetPodStatus` (client.go lines 93-119):
starting at index `i` with the running `reason`, skip cleanly terminated
init containers, and on the first other init container overwrite the
reason with an `Init:` marker, report `initializing = true` and stop. -/
def initScan : Nat → List ContainerStatus → String → Nat → String × Bool
  | _, [], reason, _ => (reason, false)
  | i, c :: rest, reason, specLen =>
    match c.state.terminated with
    | some t =>
      if t.exitCode == 0 then initScan (i + 1) rest reason specLen
      else if t.reason.length == 0 then
        if t.signal != 0 then ("Init:Signal:" ++ toString t.signal, true)
        else ("Init:ExitCode:" ++ toString t.exitCode, true)
      else ("Init:" ++ t.reason, true)
    | none =>
      match c.state.waiting with
      | some w =>
        if w.reason.length > 0 && w.reason != "PodInitializing" then
          ("Init:" ++ w.reason, true)
        else ("Init:" ++ toString i ++ "/" ++ toString specLen, true)
      | none => ("Init:" ++ toString i ++ "/" ++ toString specLen, true)

/-- One step of the regular-container scan of `GetPodStatus` (client.go
lines 123-139); the accumulator is the running reason and the `hasRunning`
flag, and the fold visits the statuses in reverse index order exactly as
the Go `for i := len - 1; i >= 0; i--` loop does. -/
def containerStep (acc : String × Bool) (c : ContainerStatus) : String × Bool :=
  let condWaiting := match c.state.waiting with
    | some w => w.reason != ""
    | none => false
  let condTermWithReason := match c.state.terminated with
    | some t => t.reason != ""
    | none => false
  let condTermNoReason := match c.state.terminated with
    | some t => t.reason == ""
    | none => false
  if condWaiting then
    (match c.state.waiting with
      | some w => w.reason
      | none => acc.1, acc.2)
  else if condTermWithReason then
    (match c.state.terminated with
      | some t => t.reason
      | none => acc.1, acc.2)
  else if condTermNoReason then
    (match c.state.terminated with
      | some t =>
        if t.signal != 0 then "Signal:" ++ toString t.signal
        else "ExitCode:" ++ toString t.exitCode
      | none => acc.1, acc.2)
  else if c.ready && c.state.running then (acc.1, true)
  else acc

/-- `GetPodStatus` (client.go lines 84-154): phase, overridden by the pod
status reason, then by the init-container scan or the reverse
regular-container scan with the `Completed`-but-running correction, and
finally by the deletion-timestamp override (`Unknown` when the pod status
reason is the node-unreachable marker `NodeLost`, else `Terminating`). -/
def getPodStatus (pod : Pod) : String :=
  let reason0 := if pod.statusReason != "" then pod.statusReason else pod.phase
  let scanned := initScan 0 pod.initContainerStatuses reason0 pod.specInitContainersLen
  let reason2 :=
    if !scanned.2 then
      let folded := pod.containerStatuses.reverse.foldl containerStep (scanned.1, false)
      if folded.1 == "Completed" && folded.2 then "Running" else folded.1
    else scanned.1
  if pod.hasDeletionTimestamp && pod.statusReason == "NodeLost" then "Unknown"
  else if pod.hasDeletionTimestamp then "Terminating"
  else reason2

/-- The readiness test of `waitForPodReady` (cmd/up.go line 685):
`len(pod.Status.ContainerStatuses) > 0 && pod.Status.ContainerStatuses[0].Ready`. -/
def podFirstContainerReady (pod : Pod) : Bool :=
  match pod.containerStatuses with
  | c :: _ => c.ready
  | [] => false

/-- Result of the readiness wait, instrumented with the number of polls
(fetches) performed. -/
inductive WaitResult where
  | ready (polls : Nat)
  | fetchError (e : String) (polls : Nat)
  | timeout (polls : Nat)
deriving DecidableEq, Repr

/-- The polling loop of `waitForPodReady` (cmd/up.go lines 677-694).
`fetch n` is what the n-th re-fetch of the pod from the cluster returns
(0-based), `checkInterval` and `maxWaitTime` are durations in seconds
(Go stores nanoseconds; only their ratio matters), and `polls` counts the
fetches already performed (callers pass 0). The loop runs while
`maxWaitTime > 0`, returns a fetch error at once, returns success when
the first container status reports ready, and otherwise sleeps and
subtracts the interval. Go would loop forever on a non-positive interval,
hence the positivity argument. -/
def waitForPodReady (fetch : Nat → Except String Pod) (checkInterval : Int)
    (hpos : 0 < checkInterval) (maxWaitTime : Int) (polls : Nat) : WaitResult :=
  if h : 0 < maxWaitTime then
    match fetch polls with
    | .error e => .fetchError e (polls + 1)
    | .ok pod =>
      if podFirstContainerReady pod then .ready (polls + 1)
      else waitForPodReady fetch checkInterval hpos (maxWaitTime - checkInterval) (polls + 1)
  else .timeout polls
termination_by maxWaitTime.toNat
decreasing_by omega

/-- A pod that never reports a ready first container: phase Running but an
empty container status list. -/
def podNeverReady : Pod :=
  { phase := "Running", statusReason := "", initContainerStatuses := [],
    containerStatuses := [], specInitContainersLen := 0,
    hasDeletionTimestamp := false }

/-- CLAIM C5. Every poll of the readiness wait re-fetches the pod; a fetch
error is returned immediately without further polling; success is
returned on the first poll whose fetched pod has a ready first container
status; and against a pod that never becomes ready, with maxWaitTime 10s
and checkInterval 5s, the loop returns a timeout after exactly
10 / 5 = 2 polls. -/
theorem waitForPodReady_spec :
    (∀ (fetch : Nat → Except String Pod) (ci : Int) (hp : 0 < ci) (mw : Int)
        (polls : Nat) (e : String), 0 < mw → fetch polls = .error e →
      waitForPodReady fetch ci hp mw polls = .fetchError e (polls + 1))
    ∧ (∀ (fetch : Nat → Except String Pod) (ci : Int) (hp : 0 < ci) (mw : Int)
        (polls : Nat) (pod : Pod), 0 < mw → fetch polls = .ok pod →
        podFirstContainerReady pod = true →
      waitForPodReady fetch ci hp mw polls = .ready (polls + 1))
    ∧ waitForPodReady (fun _ => .ok podNeverReady) 5 (by norm_num) 10 0
        = .timeout 2
    ∧ ((10 : Int) / 5 = 2) := by
  refine ⟨?_, ?_, ?_, by norm_num⟩
  · intro fetch ci hp mw polls e hmw hf
    rw [waitForPodReady]
    simp [hmw, hf]
  · intro fetch ci hp mw polls pod hmw hf hready
    rw [waitForPodReady]
    simp [hmw, hf, hready]
  · rw [waitForPodReady]
    norm_num [podFirstContainerReady, podNeverReady]
    rw [waitForPodReady]
    norm_num [podFirstContainerReady, podNeverReady]
    rw [waitForPodReady]
    norm_num

/-- Witness for C5: a fetch that fails at the first poll makes the wait
return that error after exactly one poll. -/
theorem waitForPodReady_spec_witness :
    waitForPodReady (fun _ => .error "gone") 5 (by norm_num) 10 0
      = .fetchError "gone" 1 :=
  waitForPodReady_spec.1 (fun _ => .error "gone") 5 (by norm_num) 10 0 "gone"
    (by norm_num) rfl

/-- Example pod of C6: phase Running, no container statuses, deletion
timestamp pending, status reason NodeLost (deletion due to node
unreachability). -/
def podDeletedNodeLost : Pod :=
  { phase := "Running", statusReason := "NodeLost", initContainerStatuses := [],
    containerStatuses := [], specInitContainersLen := 0,
    hasDeletionTimestamp := true }

/-- Example pod of C6: same as `podDeletedNodeLost` but the status reason
is unset, so the deletion is not due to node unreachability. -/
def podDeletedPlain : Pod :=
  { phase := "Running", statusReason := "", initContainerStatuses := [],
    containerStatuses := [], specInitContainersLen := 0,
    hasDeletionTimestamp := true }

/-- CLAIM C6. For every pod with a non-nil deletion timestamp the derived
status is Unknown when the pod status reason is the node-unreachable
marker and Terminating otherwise, overriding whatever the phase and
container scans produced; in particular the two example pods (phase
Running, no container statuses, deletion pending) yield Unknown with the
node-unreachable reason and Terminating without it. -/
theorem getPodStatus_deletion_override :
    (∀ pod : Pod, pod.hasDeletionTimestamp = true →
      getPodStatus pod
        = if pod.statusReason == "NodeLost" then "Unknown" else "Terminating")
    ∧ getPodStatus podDeletedNodeLost = "Unknown"
    ∧ getPodStatus podDeletedPlain = "Terminating" := by
  refine ⟨?_, by decide, by decide⟩
  intro pod h
  unfold getPodStatus
  rcases hr : pod.statusReason == "NodeLost" <;> simp [h, hr]

/-- Witness for C6: the override applied to the concrete NodeLost pod. -/
theorem getPodStatus_deletion_override_witness :
    getPodStatus podDeletedNodeLost
      = if podDeletedNodeLost.statusReason == "NodeLost" then "Unknown"
        else "Terminating" :=
  getPodStatus_deletion_override.1 podDeletedNodeLost rfl

/-- Errors from the namespaces API as `ensureNamespace` can observe them;
`alreadyExists` stands for the Kubernetes AlreadyExists error a create
call returns when it loses a creation race. -/
inductive NsError where
  | alreadyExists
  | other (msg : String)
deriving DecidableEq, Repr

/-- `ensureNamespace` (cmd/up.go lines 175-195). `getResult` is the error
of the namespace Get call (`none` when the namespace was found),
`createResult` the error of the Create call, which is issued only when
the Get failed. Result: the error `ensureNamespace` returns, `none` for
success. The body returns the Create error unchanged whenever Get failed
and Create failed. -/
def ensureNamespace (getResult : Option NsError) (createResult : Option NsError) :
    Option NsError :=
  match getResult with
  | none => none
  | some _ =>
    match createResult with
    | some e => some e
    | none => none

/-- Counterexample to C7 as stated: when the lookup fails and the create
fails with AlreadyExists (a lost creation race), `ensureNamespace`
returns that error, not success. -/
theorem ensureNamespace_already_exists_cex :
    ensureNamespace (some (NsError.other "not found")) (some NsError.alreadyExists)
        = some NsError.alreadyExists
      ∧ some NsError.alreadyExists ≠ (none : Option NsError) := by
  exact ⟨rfl, by simp⟩

/-- CLAIM C7, amended. `ensureNamespace` succeeds when the lookup
succeeds; when the lookup fails it returns exactly the create result, so
any create failure — an AlreadyExists race included — is returned as an
error rather than treated as success. -/
theorem ensureNamespace_create_result :
    ∀ (e : NsError) (c : Option NsError),
      ensureNamespace none c = none ∧ ensureNamespace (some e) c = c := by
  intro e c
  exact ⟨rfl, by rcases c with _ | e2 <;> rfl⟩

/-- Port-forward target pod lookup outcome together with the
configuration of one mapping (cmd/up.go lines 611-652): resource type,
label selector size, the `GetFirstRunningPod` result for its selector
(error, no running pod, or a pod), the port pair list, and whether the
ready channel fired within the five-second select window. -/
structure PFMapping where
  resourceType : String
  labelSelector : List (String × String)
  lookup : Except String (Option Pod)
  portMappings : List (Int × Int)
  readyInTime : Bool
deriving Repr

/-- Observable per-mapping outcomes of `startPortForwarding`; all of them
are log events — none aborts the run. -/
inductive PFEvent where
  | warnUnsupported
  | listError (e : String)
  | started (ports : List String)
  | timeoutError
deriving DecidableEq, Repr

/-- The `local:remote` port strings built for `ForwardPorts`. -/
def portStrings (pm : List (Int × Int)) : List String :=
  pm.map fun v => toString v.1 ++ ":" ++ toString v.2

/-- The body of the mapping loop of `startPortForwarding`: a non-pod
resource type logs the unsupported-type warning; an empty label selector
is skipped silently; a pod lookup error is logged; a missing running pod
is skipped; otherwise the tunnel is started and the ready signal is raced
against the timeout. -/
def processMapping (m : PFMapping) : List PFEvent :=
  if m.resourceType == "pod" then
    if m.labelSelector.length > 0 then
      match m.lookup with
      | .error e => [.listError e]
      | .ok none => []
      | .ok (some _) =>
        if m.readyInTime then [.started (portStrings m.portMappings)]
        else [.timeoutError]
    else []
  else [.warnUnsupported]

/-- `startPortForwarding` processes every configured mapping in order and
accumulates the logged events; no mapping outcome stops the loop. -/
def startPortForwarding (ms : List PFMapping) : List PFEvent :=
  (ms.map processMapping).flatten

/-- A mapping with an unsupported (non-pod) resource type. -/
def pfBad : PFMapping :=
  { resourceType := "deployment", labelSelector := [("release", "devspace")],
    lookup := .ok (some podNeverReady), portMappings := [(3000, 8080)],
    readyInTime := true }

/-- A well-formed pod mapping whose tunnel becomes ready in time. -/
def pfGood : PFMapping :=
  { resourceType := "pod", labelSelector := [("release", "devspace")],
    lookup := .ok (some podNeverReady), portMappings := [(3000, 8080)],
    readyInTime := true }

/-- Counterexample to C8 as stated: a mapping with a non-pod resource type
only produces a warning event and the loop continues — the following
mapping is still processed and its tunnel started, so the condition does
not abort the run. -/
theorem startPortForwarding_unsupported_cex :
    startPortForwarding [pfBad, pfGood]
        = [PFEvent.warnUnsupported, PFEvent.started ["3000:8080"]]
      ∧ startPortForwarding [pfBad, pfGood] ≠ [PFEvent.warnUnsupported] := by
  exact ⟨rfl, by decide⟩

/-- CLAIM C8, amended. A configured port-forward mapping whose target
resource type is not pod is reported with a warning message and skipped;
the condition is non-fatal: the run goes on and the remaining mappings
are processed exactly as they would have been on their own. -/
theorem startPortForwarding_unsupported_nonfatal :
    ∀ (m : PFMapping) (rest : List PFMapping), m.resourceType ≠ "pod" →
      startPortForwarding (m :: rest)
        = PFEvent.warnUnsupported :: startPortForwarding rest := by
  intro m rest h
  have hb : (m.resourceType == "pod") = false := by
    simpa using h
  simp [startPortForwarding, processMapping, hb]

/-- Witness for C8: the concrete unsupported mapping followed by a good
one yields the warning and then the events of the good mapping. -/
theorem startPortForwarding_unsupported_nonfatal_witness :
    startPortForwarding [pfBad, pfGood]
      = PFEvent.warnUnsupported :: startPortForwarding [pfGood] :=
  startPortForwarding_unsupported_nonfatal pfBad [pfGood] (by decide)

/-- One of the two in-process pipes `Exec` creates in non-TTY mode, as one
drain task of `ExecBuffered` sees it: the bytes still to be read (the
remote stream closes the write end once it is finished, so the readable
content is finite), the bytes already copied into the drain buffer, and
whether the `io.Copy` of this pipe has returned and flagged the wait
group (`streamDone.Done()`). -/
structure PipeState where
  remaining : List UInt8
  buf : List UInt8
  done : Bool
deriving DecidableEq, Repr

/-- One scheduled step of a drain task: a finished task does nothing; on a
closed, exhausted pipe `io.Copy` returns and the task flags completion;
otherwise one byte moves from the pipe into the buffer (a chunked copy is
a sequence of such steps). -/
def pipeStep (p : PipeState) : PipeState :=
  if p.done then p
  else
    match p.remaining with
    | [] => { p with done := true }
    | b :: rest => { p with remaining := rest, buf := p.buf ++ [b] }

/-- Which of the two concurrent drain goroutines of `ExecBuffered`
(client.go lines 371-379) the scheduler runs next. -/
inductive DrainTask where
  | outTask
  | errTask
deriving DecidableEq, Repr

/-- Joint state of the stdout and stderr drain tasks. -/
structure DrainState where
  outPipe : PipeState
  errPipe : PipeState
deriving DecidableEq, Repr

/-- Interleaving semantics: the scheduled task advances its own pipe and
never touches the other one. -/
def drainStep (s : DrainState) : DrainTask → DrainState
  | .outTask => { s with outPipe := pipeStep s.outPipe }
  | .errTask => { s with errPipe := pipeStep s.errPipe }

/-- Run the two drain tasks under an arbitrary finite schedule. -/
def runDrain (sched : List DrainTask) (s : DrainState) : DrainState :=
  sched.foldl drainStep s

/-- Initial drain state: the remote stream has produced `out` and `err`
on the two pipes, both buffers are empty, neither copy has returned. -/
def initDrain (out err : List UInt8) : DrainState :=
  { outPipe := { remaining := out, buf := [], done := false },
    errPipe := { remaining := err, buf := [], done := false } }

/-- The completion barrier `streamDone.Wait()` of `ExecBuffered`: it lets
the caller proceed exactly when both drain tasks have called `Done()`. -/
def waitGroupDone (s : DrainState) : Bool := s.outPipe.done && s.errPipe.done

/-- Invariant of one drain task against the data its pipe carries: what
was copied plus what is left is exactly the stream, and a finished copy
has consumed everything. -/
def drainInv (data : List UInt8) (p : PipeState) : Prop :=
  p.buf ++ p.remaining = data ∧ (p.done = true → p.remaining = [])

theorem pipeStep_inv {data : List UInt8} {p : PipeState} (h : drainInv data p) :
    drainInv data (pipeStep p) := by
  obtain ⟨hbuf, hdone⟩ := h
  unfold pipeStep
  rcases hd : p.done with _ | _
  · rcases hrem : p.remaining with _ | ⟨b, rest⟩
    · refine ⟨?_, fun _ => rfl⟩
      simpa [hrem] using hbuf
    · refine ⟨?_, fun hf => by simp at hf⟩
      simpa [hrem, List.append_assoc] using hbuf
  · exact ⟨hbuf, hdone⟩

theorem drainStep_inv {out err : List UInt8} {s : DrainState}
    (ho : drainInv out s.outPipe) (he : drainInv err s.errPipe) (t : DrainTask) :
    drainInv out (drainStep s t).outPipe ∧ drainInv err (drainStep s t).errPipe := by
  cases t
  · exact ⟨pipeStep_inv ho, he⟩
  · exact ⟨ho, pipeStep_inv he⟩

theorem runDrain_inv (out err : List UInt8) :
    ∀ (sched : List DrainTask) (s : DrainState),
      drainInv out s.outPipe → drainInv err s.errPipe →
      drainInv out (runDrain sched s).outPipe
        ∧ drainInv err (runDrain sched s).errPipe := by
  intro sched
  induction sched with
  | nil => exact fun s ho he => ⟨ho, he⟩
  | cons t rest ih =>
    intro s ho he
    have hstep := drainStep_inv ho he t
    simpa [runDrain, List.foldl_cons] using ih (drainStep s t) hstep.1 hstep.2

/-- A finished drain task stays finished and never moves again. -/
theorem pipeRun_done_fixed {p : PipeState} (h : p.done = true) : pipeStep p = p := by
  simp [pipeStep, h]

/-- Iterate one drain task. -/
def pipeRun : Nat → PipeState → PipeState
  | 0, p => p
  | n + 1, p => pipeRun n (pipeStep p)

theorem pipeRun_fixed (p : PipeState) (h : p.done = true) :
    ∀ n, pipeRun n p = p := by
  intro n
  induction n with
  | zero => rfl
  | succ m ih => simpa [pipeRun, pipeStep_inv, pipeRun_done_fixed h] using ih

theorem pipeRun_completes :
    ∀ (n : Nat) (p : PipeState), (p.done = true → p.remaining = []) →
      p.remaining.length < n →
      (pipeRun n p).done = true ∧ (pipeRun n p).buf = p.buf ++ p.remaining := by
  intro n
  induction n with
  | zero => intro p _ hlen; omega
  | succ m ih =>
    intro p hinv hlen
    rcases hd : p.done with _ | _
    · rcases hrem : p.remaining with _ | ⟨b, rest⟩
      · have hstep : pipeStep p
            = { remaining := ([] : List UInt8), buf := p.buf, done := true } := by
          simp [pipeStep, hd, hrem]
        have hfix := pipeRun_fixed
          { remaining := ([] : List UInt8), buf := p.buf, done := true } rfl m
        simp [pipeRun, hstep, hfix, hrem]
      · have hstep : pipeStep p
            = { remaining := rest, buf := p.buf ++ [b], done := false } := by
          simp [pipeStep, hd, hrem]
        have hlen2 : rest.length < m := by
          have := hlen
          simp [hrem] at this
          omega
        have := ih { remaining := rest, buf := p.buf ++ [b], done := false }
          (fun hf => by simp at hf) hlen2
        simpa [pipeRun, hstep, hrem, List.append_assoc] using this
    · have hrem := hinv hd
      have hfix := pipeRun_fixed p hd (m + 1)
      simp [hfix, hd, hrem]

/-- A schedule that runs the stdout drain alone advances only the stdout
pipe. -/
theorem runDrain_outOnly :
    ∀ (n : Nat) (s : DrainState),
      runDrain (List.replicate n DrainTask.outTask) s
        = { s with outPipe := pipeRun n s.outPipe } := by
  intro n
  induction n with
  | zero => intro s; simp [runDrain, pipeRun]
  | succ m ih =>
    intro s
    simp [runDrain, List.replicate_succ, List.foldl_cons] at ih ⊢
    simpa [drainStep] using ih { s with outPipe := pipeStep s.outPipe }

/-- A schedule that runs the stderr drain alone advances only the stderr
pipe. -/
theorem runDrain_errOnly :
    ∀ (n : Nat) (s : DrainState),
      runDrain (List.replicate n DrainTask.errTask) s
        = { s with errPipe := pipeRun n s.errPipe } := by
  intro n
  induction n with
  | zero => intro s; simp [runDrain, pipeRun]
  | succ m ih =>
    intro s
    simp [runDrain, List.replicate_succ, List.foldl_cons] at ih ⊢
    simpa [drainStep] using ih { s with errPipe := pipeStep s.errPipe }

/-- A schedule long enough to let both drains finish; which one the model
uses is immaterial by the barrier theorem, since the barrier opens only
when both tasks are done under any schedule. -/
def fullSchedule (out err : List UInt8) : List DrainTask :=
  List.replicate (out.length + 1) DrainTask.outTask
    ++ List.replicate (err.length + 1) DrainTask.errTask

/-- Environment of one non-TTY `Exec` call: the setup error, if any
(`GetClientConfig` or `NewSPDYExecutor` failing before any goroutine is
spawned), the terminal error of `exec.Stream` that the worker goroutine
tries to deliver (`none` for a clean exit), and the bytes the remote
command emits on the two streams before they end. -/
structure ExecEnv where
  setupErr : Option String
  streamErr : Option String
  stdoutData : List UInt8
  stderrData : List UInt8

/-- What the caller of `Exec` receives over the error channel (client.go
line 329): nothing if setup failed (no worker was spawned); the stream
error if a channel was supplied; and nothing — ever — if the channel is
nil, because a send on a nil Go channel blocks forever. -/
def execDelivered (errorChannelPresent : Bool) (env : ExecEnv) :
    Option (Option String) :=
  match env.setupErr with
  | some _ => none
  | none => if errorChannelPresent then some env.streamErr else none

/-- `ExecBuffered` passes a nil error channel to `Exec`
(client.go line 360: `Exec(kubectlClient, pod, container, command, false, nil)`). -/
def execBufferedErrorChannelPresent : Bool := false

/-- `ExecBuffered` (client.go lines 359-383): a setup failure from `Exec`
is returned as the error; otherwise the two drain goroutines run until
the wait group opens and the two buffers are returned with a nil error.
The drains are modelled by the scheduler above under a canonical
completing schedule; the barrier theorem shows every schedule that opens
the barrier yields these same buffers. -/
def execBuffered (env : ExecEnv) : Except String (List UInt8 × List UInt8) :=
  match env.setupErr with
  | some e => .error e
  | none =>
    let final := runDrain (fullSchedule env.stdoutData env.stderrData)
      (initDrain env.stdoutData env.stderrData)
    .ok (final.outPipe.buf, final.errPipe.buf)

theorem fullSchedule_completes (out err : List UInt8) :
    runDrain (fullSchedule out err) (initDrain out err)
      = { outPipe := { remaining := [], buf := out, done := true },
          errPipe := { remaining := [], buf := err, done := true } } := by
  have hsplit : runDrain (fullSchedule out err) (initDrain out err)
      = runDrain (List.replicate (err.length + 1) DrainTask.errTask)
          (runDrain (List.replicate (out.length + 1) DrainTask.outTask)
            (initDrain out err)) := by
    simp [fullSchedule, runDrain, List.foldl_append]
  have houtDone := pipeRun_completes (out.length + 1)
    { remaining := out, buf := [], done := false } (fun hf => by simp at hf)
    (by simp)
  have houtInv : (pipeRun (out.length + 1)
      { remaining := out, buf := [], done := false }).remaining = [] := by
    have hinv := runDrain_inv out err
      (List.replicate (out.length + 1) DrainTask.outTask) (initDrain out err)
      ⟨by simp [initDrain], fun hf => by simp [initDrain] at hf⟩
      ⟨by simp [initDrain], fun hf => by simp [initDrain] at hf⟩
    rw [runDrain_outOnly] at hinv
    have := hinv.1.2
    simpa [initDrain] using this houtDone.1
  have herrDone := pipeRun_completes (err.length + 1)
    { remaining := err, buf := [], done := false } (fun hf => by simp at hf)
    (by simp)
  have herrInv : (pipeRun (err.length + 1)
      { remaining := err, buf := [], done := false }).remaining = [] := by
    have hinv := runDrain_inv out err
      (List.replicate (err.length + 1) DrainTask.errTask) (initDrain out err)
      ⟨by simp [initDrain], fun hf => by simp [initDrain] at hf⟩
      ⟨by simp [initDrain], fun hf => by simp [initDrain] at hf⟩
    rw [runDrain_errOnly] at hinv
    have := hinv.2.2
    simpa [initDrain] using this herrDone.1
  rw [hsplit, runDrain_outOnly, runDrain_errOnly]
  simp only [initDrain]
  have hout : pipeRun (out.length + 1)
      { remaining := out, buf := [], done := false }
        = { remaining := [], buf := out, done := true } := by
    rcases hpr : pipeRun (out.length + 1)
        { remaining := out, buf := [], done := false } with ⟨r, b, d⟩
    have h1 := houtDone.1
    have h2 := houtDone.2
    have h3 := houtInv
    rw [hpr] at h1 h2 h3
    simp at h1 h2 h3
    simp [h1, h2, h3]
  have herr : pipeRun (err.length + 1)
      { remaining := err, buf := [], done := false }
        = { remaining := [], buf := err, done := true } := by
    rcases hpr : pipeRun (err.length + 1)
        { remaining := err, buf := [], done := false } with ⟨r, b, d⟩
    have h1 := herrDone.1
    have h2 := herrDone.2
    have h3 := herrInv
    rw [hpr] at h1 h2 h3
    simp at h1 h2 h3
    simp [h1, h2, h3]
  rw [hout, herr]

/-- CLAIM C9. Under every interleaving of the two drain tasks, once the
completion barrier opens (both tasks have signalled done) the two buffers
hold exactly the full stdout and stderr streams — no truncation, no
visible partial read; and the convenience variant, whenever setup
succeeds, returns precisely the full pair of streams. -/
theorem execBuffered_barrier_full :
    (∀ (out err : List UInt8) (sched : List DrainTask),
      waitGroupDone (runDrain sched (initDrain out err)) = true →
      (runDrain sched (initDrain out err)).outPipe.buf = out
        ∧ (runDrain sched (initDrain out err)).errPipe.buf = err)
    ∧ (∀ env : ExecEnv, env.setupErr = none →
        execBuffered env = .ok (env.stdoutData, env.stderrData)) := by
  constructor
  · intro out err sched hdone
    have hinv := runDrain_inv out err sched (initDrain out err)
      ⟨by simp [initDrain], fun hf => by simp [initDrain] at hf⟩
      ⟨by simp [initDrain], fun hf => by simp [initDrain] at hf⟩
    have hdoneOut : (runDrain sched (initDrain out err)).outPipe.done = true := by
      have := hdone
      unfold waitGroupDone at this
      exact (Bool.and_eq_true _ _).mp this |>.1
    have hdoneErr : (runDrain sched (initDrain out err)).errPipe.done = true := by
      have := hdone
      unfold waitGroupDone at this
      exact (Bool.and_eq_true _ _).mp this |>.2
    constructor
    · have hrem := hinv.1.2 hdoneOut
      have hbuf := hinv.1.1
      simpa [hrem] using hbuf
    · have hrem := hinv.2.2 hdoneErr
      have hbuf := hinv.2.1
      simpa [hrem] using hbuf
  · intro env h
    unfold execBuffered
    rw [h]
    simp [fullSchedule_completes]

/-- Witness for C9: a two-byte stdout stream and one-byte stderr stream
drained under a concrete alternating schedule that opens the barrier. -/
theorem execBuffered_barrier_full_witness :
    (runDrain [DrainTask.outTask, DrainTask.errTask, DrainTask.outTask,
        DrainTask.errTask, DrainTask.outTask]
      (initDrain [1, 2] [7])).outPipe.buf = [1, 2]
    ∧ (runDrain [DrainTask.outTask, DrainTask.errTask, DrainTask.outTask,
        DrainTask.errTask, DrainTask.outTask]
      (initDrain [1, 2] [7])).errPipe.buf = [7] :=
  execBuffered_barrier_full.1 [1, 2] [7]
    [DrainTask.outTask, DrainTask.errTask, DrainTask.outTask,
      DrainTask.errTask, DrainTask.outTask] (by decide)

/-- CLAIM C10. `ExecBuffered` returns a non-nil error exactly for setup
failures: when setup succeeds it returns `.ok` buffers no matter how the
remote stream ends — its result does not depend on the stream error at
all — and because it hands `Exec` a nil error channel, the terminal
stream error the worker tries to send is never received by anyone. -/
theorem execBuffered_swallows_stream_error :
    (∀ (env : ExecEnv) (e : String), env.setupErr = some e →
      execBuffered env = .error e)
    ∧ (∀ env : ExecEnv, env.setupErr = none →
        execBuffered env = .ok (env.stdoutData, env.stderrData))
    ∧ (∀ (env : ExecEnv) (e1 e2 : Option String),
        execBuffered { env with streamErr := e1 }
          = execBuffered { env with streamErr := e2 })
    ∧ (∀ env : ExecEnv, execDelivered execBufferedErrorChannelPresent env = none) := by
  refine ⟨?_, ?_, ?_, ?_⟩
  · intro env e h
    unfold execBuffered
    rw [h]
  · intro env h
    unfold execBuffered
    rw [h]
    simp [fullSchedule_completes]
  · intro env e1 e2
    rfl
  · intro env
    unfold execDelivered execBufferedErrorChannelPresent
    rcases env.setupErr with _ | e <;> simp

/-- Witness for C10: a concrete environment with a clean setup and a
transport failure at stream end still yields `.ok` with the full buffers,
and the nil channel delivers nothing. -/
theorem execBuffered_swallows_stream_error_witness :
    execBuffered
        { setupErr := none, streamErr := some "transport broke",
          stdoutData := [1, 2], stderrData := [7] }
      = .ok ([1, 2], [7]) :=
  execBuffered_swallows_stream_error.2.1
    { setupErr := none, streamErr := some "transport broke",
      stdoutData := [1, 2], stderrData := [7] } rfl

end DevSpace
